import Mathlib

/-!
Verification development for the training core of the DiffAugment StyleGAN2
repository: a shallow embedding of `training/loss.py`
(`StyleGAN2Loss.accumulate_gradients` and its helpers) and of
`training/training_loop.py` (`training_loop`), together with theorems about
the embedded code.

Modelling conventions:
* tensors are lists of rationals (a batch of per-sample scalars is a
  `QVec`; a batch of flattened images is a `QMat`, one row per sample);
* the external collaborators (generator mapping and synthesis,
  discriminator, augmentation transforms, softplus, and the autograd
  gradient of the summed discriminator output with respect to its input)
  are oracle fields of the `StyleGAN2Loss` structure: the spec treats them
  as external interfaces, and none of the claims depend on their values;
* Python control flow is embedded faithfully, including the fact that in
  `loss.py` lines 107 and 109 sit at method level, outside the
  `if do_Dmain or do_Dr1:` block, so that names bound only inside that
  block can be unbound when those lines run (modelled as `PyErr.nameError`)
  and `loss_Dreal` can still be the Python int `0` when `.mean()` is
  called on it (modelled as `PyErr.attributeError`);
* the observable actions of a call (forward passes, the `requires_grad_`
  setting on the real-image tensor, backward calls) are recorded in an
  event trace.
-/

/-- Batch of per-sample scalars, for example discriminator logits. -/
abbrev QVec := List ℚ

/-- Batch of flattened images: one row of pixel values per sample. -/
abbrev QMat := List QVec

/-- Mean of a batch, as `tensor.mean()` computes it. -/
def meanQ (v : QVec) : ℚ := v.sum / v.length

/-- Python runtime errors the embedded code can raise. -/
inductive PyErr
  | assertError
  | nameError
  | attributeError
deriving DecidableEq

/-- Python value that is either the int literal `0` or a tensor.
Lines 96 and 100 of `loss.py` initialise `loss_Dreal` and `loss_Dr1`
to the Python int `0` and only conditionally overwrite them with tensors. -/
inductive PyNum
  | int (n : ℤ)
  | tensor (v : QVec)
deriving DecidableEq

/-- Broadcast addition of a tensor with a `PyNum`, as in
`real_logits * 0 + loss_Dreal + loss_Dr1` on line 107 of `loss.py`. -/
def addB (v : QVec) : PyNum → QVec
  | PyNum.int n => v.map (fun x => x + (n : ℚ))
  | PyNum.tensor w => List.zipWith (fun x y => x + y) v w

/-- Observable actions of one `accumulate_gradients` call.  A `backward`
event carries the scalar that is backpropagated and two flags recording
whether the generator forward and the discriminator forward are part of
the autograd graph of that scalar (a backward call populates the gradient
buffers of exactly the modules that are in the graph and currently have
`requires_grad` enabled; the driver enables it for one module at a time). -/
inductive LEvent
  | runGcall
  | runDcall
  | requiresGradReal (b : Bool)
  | backward (x : ℚ) (gGraph dGraph : Bool)
deriving DecidableEq

/-- Embedding of `class StyleGAN2Loss` (`loss.py` lines 28-42).  The
network forwards, the augmentation transforms, `softplus` and the autograd
oracle `gradSumD` (standing for
`torch.autograd.grad(outputs=[run_D(img, c).sum()], inputs=[img])[0]`,
the per-pixel gradient of the summed logits) are abstract parameters. -/
structure StyleGAN2Loss where
  G_mapping : QMat → QVec → QMat
  G_synthesis : QMat → QMat
  D : QMat → QVec → QVec
  diffaugment : Option (QMat → QMat)
  augment_pipe : Option (QMat → QMat)
  style_mixing_prob : ℚ
  r1_gamma : ℚ
  pl_weight : ℚ
  softplus : ℚ → ℚ
  gradSumD : QMat → QVec → QMat

/-- Embedding of `StyleGAN2Loss.run_G` (`loss.py` lines 44-54): mapping
followed by synthesis.  The style-mixing splice (lines 47-51) re-runs the
mapping on a fresh random latent with probability `style_mixing_prob` and
splices the result into `ws` in place; being a randomised update of the
mapping output it is folded into the abstract `G_mapping` oracle, which no
claim inspects. -/
def StyleGAN2Loss.run_G (L : StyleGAN2Loss) (z : QMat) (c : QVec) : QMat :=
  L.G_synthesis (L.G_mapping z c)

/-- Embedding of `StyleGAN2Loss.run_D` (`loss.py` lines 56-63): optional
fixed DiffAugment policy, then optional adaptive augmentation pipe, then
the discriminator. -/
def StyleGAN2Loss.run_D (L : StyleGAN2Loss) (img : QMat) (c : QVec) : QVec :=
  let img1 := match L.diffaugment with
    | some f => f img
    | none => img
  let img2 := match L.augment_pipe with
    | some f => f img1
    | none => img1
  L.D img2 c

/-- Embedding of `StyleGAN2Loss.accumulate_gradients` (`loss.py` lines
65-109).  Returns the event trace of the call together with either the
returned scalar or the Python error the call raises.  The control flow
mirrors the source line by line; in particular lines 107 and 109 execute
at method level even when the `if do_Dmain or do_Dr1:` block did not run,
in which case `real_logits` is unbound and line 107 raises a `NameError`,
and when the block ran with `do_Dmain` false, `loss_Dreal` is still the
Python int `0`, so `loss_Dreal.mean()` on line 109 raises an
`AttributeError`. -/
def StyleGAN2Loss.accumulate_gradients (L : StyleGAN2Loss) (phase : String)
    (real_img : QMat) (real_c : QVec) (gen_z : QMat) (gen_c : QVec)
    (sync : Bool) (gain : ℚ) : List LEvent × Except PyErr ℚ :=
  if phase ∈ (["Gmain", "Greg", "Gboth", "Dmain", "Dreg", "Dboth"] : List String) then
    let do_Gmain : Bool := decide (phase ∈ (["Gmain", "Gboth"] : List String))
    let do_Dmain : Bool := decide (phase ∈ (["Dmain", "Dboth"] : List String))
    let do_Dr1 : Bool :=
      decide (phase ∈ (["Dreg", "Dboth"] : List String)) && decide (L.r1_gamma ≠ 0)
    if do_Gmain then
      let gen_img := L.run_G gen_z gen_c
      let gen_logits := L.run_D gen_img gen_c
      let loss_Gmain := meanQ (gen_logits.map (fun x => L.softplus (-x))) * gain
      ([LEvent.runGcall, LEvent.runDcall, LEvent.backward loss_Gmain true true],
        Except.ok loss_Gmain)
    else
      let genEvents : List LEvent :=
        if do_Dmain then
          let gen_img := L.run_G gen_z gen_c
          let gen_logits := L.run_D gen_img gen_c
          [LEvent.runGcall, LEvent.runDcall,
            LEvent.backward (meanQ (gen_logits.map L.softplus) * gain) true true]
        else []
      if do_Dmain || do_Dr1 then
        let real_logits := L.run_D real_img real_c
        let loss_Dreal : PyNum :=
          if do_Dmain then PyNum.tensor (real_logits.map (fun x => L.softplus (-x)))
          else PyNum.int 0
        let loss_Dr1 : PyNum :=
          if do_Dr1 then
            PyNum.tensor ((L.gradSumD real_img real_c).map
              (fun row => (row.map (fun g => g ^ 2)).sum * (L.r1_gamma / 2)))
          else PyNum.int 0
        let combined := addB (addB (real_logits.map (fun x => x * 0)) loss_Dreal) loss_Dr1
        let evs := genEvents ++
          [LEvent.requiresGradReal do_Dr1, LEvent.runDcall,
            LEvent.backward (meanQ combined * gain) false true]
        match loss_Dreal with
        | PyNum.tensor v => (evs, Except.ok (meanQ v))
        | PyNum.int _ => (evs, Except.error PyErr.attributeError)
      else
        (genEvents, Except.error PyErr.nameError)
  else ([], Except.error PyErr.assertError)

/-- Modules whose gradient buffers a trace populates, given which modules
currently have `requires_grad` enabled (the driver enables exactly the
module of the running phase, `training_loop.py` lines 245 and 260). -/
def populatedModules (gEnabled dEnabled : Bool) (evs : List LEvent) : Bool × Bool :=
  (evs.any (fun e => match e with
      | LEvent.backward _ g _ => g && gEnabled
      | _ => false),
    evs.any (fun e => match e with
      | LEvent.backward _ _ d => d && dEnabled
      | _ => false))

/-- Concrete instantiation of the oracles, used to evaluate the embedded
code at concrete inputs: the discriminator logit of a sample is the sum of
its pixels, the generator passes latents through, the gradient oracle
returns the input image, and softplus is instantiated as the identity
(its numeric shape is irrelevant to every claim). -/
def testLoss : StyleGAN2Loss where
  G_mapping := fun z _ => z
  G_synthesis := fun ws => ws
  D := fun img _ => img.map List.sum
  diffaugment := none
  augment_pipe := none
  style_mixing_prob := 9 / 10
  r1_gamma := 2
  pl_weight := 0
  softplus := fun x => x
  gradSumD := fun img _ => img

instance : DecidableEq (Except PyErr ℚ) := fun a b =>
  match a, b with
  | Except.ok x, Except.ok y =>
    if h : x = y then isTrue (by rw [h]) else isFalse (by simp [h])
  | Except.error e, Except.error f =>
    if h : e = f then isTrue (by rw [h]) else isFalse (by simp [h])
  | Except.ok _, Except.error _ => isFalse (by simp)
  | Except.error _, Except.ok _ => isFalse (by simp)

/-- C8: accumulate_gradients fails eagerly with an invalid-phase error,
before any forward or backward computation (empty event trace), whenever
the phase argument is not one of the six recognized identities.  This is
the assert on line 66 of loss.py, which runs before anything else. -/
theorem invalid_phase_fails_eagerly (L : StyleGAN2Loss) (phase : String)
    (h : phase ∉ (["Gmain", "Greg", "Gboth", "Dmain", "Dreg", "Dboth"] : List String))
    (real_img : QMat) (real_c : QVec) (gen_z : QMat) (gen_c : QVec)
    (sync : Bool) (gain : ℚ) :
    L.accumulate_gradients phase real_img real_c gen_z gen_c sync gain =
      ([], Except.error PyErr.assertError) := by
  unfold StyleGAN2Loss.accumulate_gradients
  rw [if_neg h]

/-- Witness for C8 at the concrete phase name "Xmain". -/
theorem invalid_phase_fails_eagerly_witness :
    testLoss.accumulate_gradients "Xmain" [[1]] [] [[1]] [] true 1 =
      ([], Except.error PyErr.assertError) :=
  invalid_phase_fails_eagerly testLoss "Xmain" (by decide) [[1]] [] [[1]] [] true 1

/-- C1 (code bug): with every oracle instantiated and well-shaped batches,
phase "Greg" does not return a scalar: the backward line 107 of loss.py
sits outside the `if do_Dmain or do_Dr1:` block, so it runs with
`real_logits` unbound and raises a NameError.  The phases that do run to
completion populate exactly one module: under the requires_grad context
the driver sets up, "Gmain" populates only the generator buffers and
"Dboth" only the discriminator buffers. -/
theorem accumulate_gradients_greg_crashes :
    (testLoss.accumulate_gradients "Greg" [[1, 2], [3, 4]] [] [[1, 0], [0, 1]] [] true 1 =
      ([], Except.error PyErr.nameError)) ∧
    (testLoss.accumulate_gradients "Gmain" [[1, 2], [3, 4]] [] [[1, 0], [0, 1]] [] true 1 =
      ([LEvent.runGcall, LEvent.runDcall, LEvent.backward (-1) true true],
        Except.ok (-1))) ∧
    (populatedModules true false
      (testLoss.accumulate_gradients "Gmain" [[1, 2], [3, 4]] [] [[1, 0], [0, 1]] [] true 1).1 =
      (true, false)) ∧
    (testLoss.accumulate_gradients "Dboth" [[1, 2], [3, 4]] [] [[1, 0], [0, 1]] [] true 1 =
      ([LEvent.runGcall, LEvent.runDcall, LEvent.backward 1 true true,
        LEvent.requiresGradReal true, LEvent.runDcall, LEvent.backward 10 false true],
        Except.ok (-5))) ∧
    (populatedModules false true
      (testLoss.accumulate_gradients "Dboth" [[1, 2], [3, 4]] [] [[1, 0], [0, 1]] [] true 1).1 =
      (false, true)) := by
  refine ⟨?_, ?_, ?_, ?_, ?_⟩ <;>
    norm_num +decide [StyleGAN2Loss.accumulate_gradients, StyleGAN2Loss.run_G,
      StyleGAN2Loss.run_D, testLoss, meanQ, addB, populatedModules]

/-- C4 (code bug): a discriminator-regularization-only call (phase "Dreg",
r1_gamma different from 0) runs the real branch and the combined backward,
but then `return loss_Dreal.mean()` on line 109 of loss.py is evaluated
with `loss_Dreal` still bound to the Python int 0, so the call raises an
AttributeError instead of returning the numeric zero. -/
theorem dreg_return_raises_attributeerror :
    testLoss.accumulate_gradients "Dreg" [[1]] [] [[1]] [] true 1 =
      ([LEvent.requiresGradReal true, LEvent.runDcall, LEvent.backward 1 false true],
        Except.error PyErr.attributeError) := by
  norm_num +decide [StyleGAN2Loss.accumulate_gradients, StyleGAN2Loss.run_G,
    StyleGAN2Loss.run_D, testLoss, meanQ, addB]

/-- C5: for a discriminator phase with R1 requested (phase in
{"Dreg", "Dboth"} and r1_gamma different from 0), the call enables
gradient tracking on the real image (requiresGradReal true), and issues a
single backward for the real branch whose scalar is the mean of
`real_logits * 0 + loss_Dreal + loss_Dr1` scaled by gain, where the R1
penalty per sample is the squared gradient of the summed real logits with
respect to the real image, summed over the flattened channel and spatial
dimensions and scaled by `r1_gamma / 2` (loss.py lines 92-107).  For a
plain "Dmain" call, gradient tracking on the real image is disabled, so
tracking is enabled exactly when R1 is requested. -/
theorem r1_penalty_formula (L : StyleGAN2Loss) (real_img : QMat) (real_c : QVec)
    (gen_z : QMat) (gen_c : QVec) (sync : Bool) (gain : ℚ) (phase : String)
    (hp : phase = "Dreg" ∨ phase = "Dboth") (hγ : L.r1_gamma ≠ 0) :
    ((L.accumulate_gradients phase real_img real_c gen_z gen_c sync gain).1 =
      (if phase = "Dboth" then
        [LEvent.runGcall, LEvent.runDcall,
          LEvent.backward (meanQ ((L.run_D (L.run_G gen_z gen_c) gen_c).map L.softplus) * gain)
            true true]
      else []) ++
      [LEvent.requiresGradReal true, LEvent.runDcall,
        LEvent.backward
          (meanQ (addB (addB ((L.run_D real_img real_c).map (fun x => x * 0))
              (if phase = "Dboth" then
                PyNum.tensor ((L.run_D real_img real_c).map (fun x => L.softplus (-x)))
              else PyNum.int 0))
            (PyNum.tensor ((L.gradSumD real_img real_c).map
              (fun row => (row.map (fun g => g ^ 2)).sum * (L.r1_gamma / 2))))) * gain)
          false true]) ∧
    (∀ b, LEvent.requiresGradReal b ∈
        (L.accumulate_gradients "Dmain" real_img real_c gen_z gen_c sync gain).1 → b = false) := by
  constructor
  · rcases hp with h | h <;> subst h <;>
      simp [StyleGAN2Loss.accumulate_gradients, hγ]
  · simp [StyleGAN2Loss.accumulate_gradients]

/-- Witness for C5 at phase "Dreg" with the concrete oracle instantiation. -/
theorem r1_penalty_formula_witness :
    (testLoss.accumulate_gradients "Dreg" [[1]] [] [[1]] [] true 1).1 =
      (if ("Dreg" : String) = "Dboth" then
        [LEvent.runGcall, LEvent.runDcall,
          LEvent.backward
            (meanQ ((testLoss.run_D (testLoss.run_G [[1]] []) []).map testLoss.softplus) * 1)
            true true]
      else []) ++
      [LEvent.requiresGradReal true, LEvent.runDcall,
        LEvent.backward
          (meanQ (addB (addB ((testLoss.run_D [[1]] []).map (fun x => x * 0))
              (if ("Dreg" : String) = "Dboth" then
                PyNum.tensor ((testLoss.run_D [[1]] []).map (fun x => testLoss.softplus (-x)))
              else PyNum.int 0))
            (PyNum.tensor ((testLoss.gradSumD [[1]] []).map
              (fun row => (row.map (fun g => g ^ 2)).sum * (testLoss.r1_gamma / 2))))) * 1)
          false true] :=
  (r1_penalty_formula testLoss [[1]] [] [[1]] [] true 1 "Dreg" (Or.inl rfl)
    (by norm_num [testLoss])).1

/-!
Embedding of the driver, `training_loop.py` lines 103-338.  One value of
`LoopState` holds the mutable loop variables; `training_loop_step` is one
pass through the body of the `while True:` loop (lines 228-333), returning
the next state, the observable events of the pass, and whether the pass
ended in `break`; `training_loop_run` iterates it with explicit fuel.
Data fetching, the network forwards inside the phase loop, gradient
reduction and optimizer internals are external collaborators; the driver
events record the per-phase optimizer steps, the once-per-iteration EMA
update (by the exponent e such that the decay factor is `0.5 ** e`), any
ADA adjustment, and tick boundaries.
-/

/-- Observable actions of one pass of the while-body of `training_loop`. -/
inductive DEvent
  | optStep (phaseName : String)
  | emaUpdate (exponent : ℚ)
  | adaAdjusted (newP : ℚ)
  | tick (nimg : ℕ)
deriving DecidableEq

/-- Training phases as constructed in `training_loop.py` lines 208-211:
one fused both-phase per module, name `G`/`D` plus `both`, interval 1. -/
def training_phases : List (String × ℕ) := [("Gboth", 1), ("Dboth", 1)]

/-- Configuration of the loop: the keyword arguments of `training_loop`
the embedded core reads, the presence of `augment_kwargs`, the abort
callback (indexed by how many ticks have completed when it is polled) and
the stream of values the `Loss/signs/real` statistic would report at a
given `batch_idx`. -/
structure LoopConfig where
  batch_size : ℕ
  batch_gpu : ℕ
  ema_kimg : ℕ
  ema_rampup : Option ℚ
  augment_kwargs_present : Bool
  augment_p : ℚ
  ada_target : Option ℚ
  ada_interval : ℕ
  ada_kimg : ℕ
  total_kimg : ℕ
  kimg_per_tick : ℚ
  abort_present : Bool
  abort : ℕ → Bool
  realSigns : ℕ → ℚ

/-- Mutable state of the loop: progress counters (lines 222-225), the
augmentation probability held by the pipe, and the presence flags set
during initialisation (lines 189-193: the pipe exists when augmentation
is configured and either `augment_p > 0` or `ada_target` is set; line
190: `ada_stats = None`, and no later line reassigns it). -/
structure LoopState where
  cur_nimg : ℕ
  cur_tick : ℕ
  tick_start_nimg : ℕ
  batch_idx : ℕ
  p : ℚ
  pipe_present : Bool
  ada_stats_present : Bool
  done : Bool
deriving DecidableEq

/-- State of the loop variables when the `while True:` loop is entered. -/
def initLoopState (cfg : LoopConfig) : LoopState where
  cur_nimg := 0
  cur_tick := 0
  tick_start_nimg := 0
  batch_idx := 0
  p := cfg.augment_p
  pipe_present :=
    cfg.augment_kwargs_present && (decide (0 < cfg.augment_p) || cfg.ada_target.isSome)
  ada_stats_present := false
  done := false

/-- Sign function of numpy, as used on line 285. -/
def npSign (x : ℚ) : ℚ := if 0 < x then 1 else if x < 0 then -1 else 0

/-- ADA adjustment summand, line 285:
`np.sign(stat - ada_target) * (batch_size * ada_interval) / (ada_kimg * 1000)`. -/
def adaAdjust (batch_size ada_interval ada_kimg : ℕ) (ada_target stat : ℚ) : ℚ :=
  npSign (stat - ada_target) * ((batch_size : ℚ) * ada_interval) / ((ada_kimg : ℚ) * 1000)

/-- ADA probability update, line 286:
`augment_pipe.p.copy_((augment_pipe.p + adjust).max(misc.constant(0, ...)))`. -/
def adaUpdateP (p adjust : ℚ) : ℚ := max (p + adjust) 0

/-- One pass through the body of the `while True:` loop of
`training_loop` (lines 228-333).  Returns the updated state, the events
of the pass, and whether the pass reached `break` (line 333).  The data
fetch (228-239) and the loss calls inside the phase loop do not change
any loop variable; each phase contributes its optimizer step (line 265).
Lines 271-276 compute the EMA decay exponent; lines 279-280 advance the
counters; lines 283-286 run the ADA heuristic only when `ada_stats` is
not None; line 288 computes `done`; lines 295-296 `continue` early when
no tick boundary is reached; lines 299-302 poll the abort callback; line
323 advances `cur_tick`; lines 332-333 break when done. -/
def training_loop_step (cfg : LoopConfig) (s : LoopState) : LoopState × List DEvent × Bool :=
  let phaseEvents := training_phases.map (fun ph => DEvent.optStep ph.1)
  let ema_nimg : ℚ := match cfg.ema_rampup with
    | none => (cfg.ema_kimg : ℚ) * 1000
    | some r => min ((cfg.ema_kimg : ℚ) * 1000) ((s.cur_nimg : ℚ) * r)
  let emaExp : ℚ := (cfg.batch_size : ℚ) / max ema_nimg (1 / 100000000)
  let cur_nimg := s.cur_nimg + cfg.batch_size
  let batch_idx := s.batch_idx + 1
  let pAda : Option ℚ :=
    if s.ada_stats_present && (batch_idx % cfg.ada_interval == 0) then
      some (adaUpdateP s.p (adaAdjust cfg.batch_size cfg.ada_interval cfg.ada_kimg
        (cfg.ada_target.getD 0) (cfg.realSigns batch_idx)))
    else none
  let p := pAda.getD s.p
  let adaEvents := match pAda with
    | some q => [DEvent.adaAdjusted q]
    | none => []
  let done : Bool := decide (cfg.total_kimg * 1000 ≤ cur_nimg)
  let events := phaseEvents ++ [DEvent.emaUpdate emaExp] ++ adaEvents
  if !done && (s.cur_tick != 0) &&
      decide ((cur_nimg : ℚ) < (s.tick_start_nimg : ℚ) + cfg.kimg_per_tick * 1000) then
    ({ s with cur_nimg := cur_nimg, batch_idx := batch_idx, p := p, done := false },
      events, false)
  else
    let done2 := done || (!done && cfg.abort_present && cfg.abort s.cur_tick)
    ({ s with cur_nimg := cur_nimg, batch_idx := batch_idx, p := p, cur_tick := s.cur_tick + 1, done := done2 },
      events ++ [DEvent.tick cur_nimg], done2)

/-- Fuel-indexed iteration of the loop body: runs until `break` or until
the fuel is exhausted, returning the final state, the concatenated event
trace, and the number of passes executed. -/
def training_loop_run (cfg : LoopConfig) : ℕ → LoopState → LoopState × List DEvent × ℕ
  | 0, s => (s, [], 0)
  | Nat.succ fuel, s =>
    let r := training_loop_step cfg s
    if r.2.2 then (r.1, r.2.1, 1)
    else
      let rest := training_loop_run cfg fuel r.1
      (rest.1, r.2.1 ++ rest.2.1, rest.2.2 + 1)

/-- State of the loop variables after the first `n` passes, ignoring
`break` (used for statements about prefixes of a run). -/
def loopStateAfter (cfg : LoopConfig) : ℕ → LoopState
  | 0 => initLoopState cfg
  | n + 1 => (training_loop_step cfg (loopStateAfter cfg n)).1

/-- Payload of a tick-boundary event. -/
def tickPayload : DEvent → Option ℕ
  | DEvent.tick n => some n
  | _ => none

/-- Payload of an EMA-update event: the exponent e with decay factor
`0.5 ** e`. -/
def emaPayload : DEvent → Option ℚ
  | DEvent.emaUpdate q => some q
  | _ => none

/-- C7: every pass of the loop body performs exactly one generator EMA
update (although it steps two phase optimizers), and its decay factor is
`0.5 ** e` for the exponent `e = batch_size / max(ema_nimg, 1e-8)` with
`ema_nimg = ema_kimg * 1000`, capped by `cur_nimg * ema_rampup` when
`ema_rampup` is set (`training_loop.py` lines 271-276, executed once per
iteration, outside the per-phase loop). -/
theorem ema_update_once_per_iteration (cfg : LoopConfig) (s : LoopState) :
    ((training_loop_step cfg s).2.1.filterMap emaPayload =
      [(cfg.batch_size : ℚ) / max (match cfg.ema_rampup with
          | none => (cfg.ema_kimg : ℚ) * 1000
          | some r => min ((cfg.ema_kimg : ℚ) * 1000) ((s.cur_nimg : ℚ) * r))
        (1 / 100000000)]) ∧
    ((training_loop_step cfg s).2.1.countP (fun e => match e with
        | DEvent.optStep _ => true
        | _ => false)) = 2 := by
  unfold training_loop_step
  rcases cfg.ema_rampup with _ | r <;>
    by_cases hAda : (s.ada_stats_present && ((s.batch_idx + 1) % cfg.ada_interval == 0)) = true <;>
    simp only [hAda, if_true, if_false] <;>
    split <;>
    simp [training_phases, emaPayload, List.countP, List.countP.go]

/-- Every value of the ADA update is nonnegative along a scan, provided
the start is. -/
theorem all_scanl_ada_nonneg (bs ai ak : ℕ) (target : ℚ) :
    ∀ (obs : List ℚ) (q : ℚ), 0 ≤ q →
      ∀ x ∈ List.scanl (fun p stat => adaUpdateP p (adaAdjust bs ai ak target stat)) q obs,
        0 ≤ x := by
  intro obs
  induction obs with
  | nil =>
    intro q hq x hx
    simp [List.scanl] at hx
    simpa [hx] using hq
  | cons o t ih =>
    intro q hq x hx
    simp only [List.scanl, List.mem_cons] at hx
    rcases hx with rfl | hx
    · exact hq
    · exact ih _ (le_max_right _ 0) x hx

/-- C9: the augmentation probability is never negative.  For every
starting probability and every sequence of statistic observations, every
value of `p` after an adjustment step (line 286 takes the max of the
adjusted value with the constant 0) is at least zero. -/
theorem augment_p_never_negative (bs ai ak : ℕ) (target p0 : ℚ) (obs : List ℚ) :
    ∀ q ∈ (List.scanl (fun p stat => adaUpdateP p (adaAdjust bs ai ak target stat)) p0 obs).tail,
      0 ≤ q := by
  cases obs with
  | nil => simp [List.scanl]
  | cons o t =>
    intro q hq
    simp only [List.scanl, List.tail_cons] at hq
    exact all_scanl_ada_nonneg bs ai ak target t _ (le_max_right _ 0) q hq

/-- Witness for C9: one adjustment from p = 0 with statistic 4/5 against
target 3/5 lands on a nonnegative probability. -/
theorem augment_p_never_negative_witness :
    0 ≤ adaUpdateP 0 (adaAdjust 4 4 500 (3 / 5) (4 / 5)) :=
  augment_p_never_negative 4 4 500 (3 / 5) 0 [4 / 5] _ (by simp [List.scanl])

/-- When `ada_stats` is absent (as it always is: line 190 sets it to None
and nothing reassigns it), one pass of the loop leaves the augmentation
probability untouched and the absence persists. -/
theorem step_p_of_no_ada (cfg : LoopConfig) (s : LoopState) (h : s.ada_stats_present = false) :
    (training_loop_step cfg s).1.p = s.p ∧
      (training_loop_step cfg s).1.ada_stats_present = false := by
  unfold training_loop_step
  simp only [h, Bool.false_and, if_false]
  split <;> simp [h]

/-- One pass of the loop body always advances `cur_nimg` by exactly
`batch_size` (line 279), on both the continue path and the tick path. -/
theorem step_cur_nimg (cfg : LoopConfig) (s : LoopState) :
    (training_loop_step cfg s).1.cur_nimg = s.cur_nimg + cfg.batch_size := by
  unfold training_loop_step
  rcases cfg.ema_rampup with _ | r <;>
    by_cases hAda : (s.ada_stats_present && ((s.batch_idx + 1) % cfg.ada_interval == 0)) = true <;>
    simp only [hAda, if_true, if_false] <;>
    split <;> rfl

/-- With no abort callback installed, a pass of the loop body ends in
`break` exactly when the advanced image counter meets the budget
(lines 288 and 332). -/
theorem step_brk (cfg : LoopConfig) (s : LoopState) (h : cfg.abort_present = false) :
    (training_loop_step cfg s).2.2 =
      decide (cfg.total_kimg * 1000 ≤ s.cur_nimg + cfg.batch_size) := by
  unfold training_loop_step
  rcases cfg.ema_rampup with _ | r <;>
    by_cases hAda : (s.ada_stats_present && ((s.batch_idx + 1) % cfg.ada_interval == 0)) = true <;>
    simp only [hAda, if_true, if_false] <;>
    split
  all_goals
    first
    | (next hc =>
        simp only [Bool.and_eq_true] at hc
        have hd := hc.1.1
        rw [Bool.not_eq_true'] at hd
        simp [hd])
    | simp [h]

/-- The `done` flag stored in the state agrees with whether the pass
ended in `break`. -/
theorem step_done_eq_brk (cfg : LoopConfig) (s : LoopState) :
    (training_loop_step cfg s).1.done = (training_loop_step cfg s).2.2 := by
  unfold training_loop_step
  rcases cfg.ema_rampup with _ | r <;>
    by_cases hAda : (s.ada_stats_present && ((s.batch_idx + 1) % cfg.ada_interval == 0)) = true <;>
    simp only [hAda, if_true, if_false] <;>
    split <;> rfl

/-- Configuration of the ADA end-to-end scenario of the claim:
`ada_target = 0.6`, `ada_interval = 4`, `ada_kimg = 500`,
`batch_size = 4`, an augmentation pipe configured, and the real-sign
statistic reading `0.8` at every optimizer step. -/
def adaScenarioCfg : LoopConfig where
  batch_size := 4
  batch_gpu := 4
  ema_kimg := 10
  ema_rampup := none
  augment_kwargs_present := true
  augment_p := 0
  ada_target := some (3 / 5)
  ada_interval := 4
  ada_kimg := 500
  total_kimg := 25000
  kimg_per_tick := 1 / 2
  abort_present := false
  abort := fun _ => false
  realSigns := fun _ => 4 / 5

/-- C2 (code bug): the adaptive augmentation controller never becomes
active.  `training_loop.py` line 190 initialises `ada_stats = None` and no
line reassigns it, so the guard on line 283 is never satisfied: after any
number of iterations of any configuration the augmentation probability
still equals the configured `augment_p`.  In particular, in the scenario
of the claim (target 0.6, interval 4, ada_kimg 500, batch 4, statistic
0.8 at each of 4 consecutive steps, pipe present) the probability does
not increase at the 4th step: it stays at its initial value. -/
theorem ada_controller_never_adjusts :
    (∀ cfg n, (loopStateAfter cfg n).ada_stats_present = false ∧
        (loopStateAfter cfg n).p = cfg.augment_p) ∧
    ((initLoopState adaScenarioCfg).pipe_present = true ∧
      (loopStateAfter adaScenarioCfg 4).p = 0) := by
  have main : ∀ cfg n, (loopStateAfter cfg n).ada_stats_present = false ∧
      (loopStateAfter cfg n).p = cfg.augment_p := by
    intro cfg n
    induction n with
    | zero => exact ⟨rfl, rfl⟩
    | succ k ih =>
      have h := step_p_of_no_ada cfg (loopStateAfter cfg k) ih.1
      exact ⟨h.2, by rw [loopStateAfter, h.1, ih.2]⟩
  refine ⟨main, ?_, ?_⟩
  · decide
  · exact (main adaScenarioCfg 4).2

/-- Configuration of the image-budget end-to-end scenario:
`total_kimg = 1`, `batch_size = 4`, single process, no abort callback. -/
def budgetScenarioCfg : LoopConfig where
  batch_size := 4
  batch_gpu := 4
  ema_kimg := 10
  ema_rampup := none
  augment_kwargs_present := false
  augment_p := 0
  ada_target := none
  ada_interval := 4
  ada_kimg := 500
  total_kimg := 1
  kimg_per_tick := 1 / 2
  abort_present := false
  abort := fun _ => false
  realSigns := fun _ => 0

/-- Budget-run invariant: starting from any state whose image counter is a
multiple of 4 below the budget of 1000, and given enough fuel, the loop
executes exactly `(1000 - cur_nimg) / 4` further passes and stops with the
counter at 1000 and `done` set. -/
theorem run_budget_aux : ∀ fuel s, s.cur_nimg % 4 = 0 → s.cur_nimg < 1000 →
    1000 ≤ s.cur_nimg + fuel * 4 →
    (training_loop_run budgetScenarioCfg fuel s).2.2 = (1000 - s.cur_nimg) / 4 ∧
    (training_loop_run budgetScenarioCfg fuel s).1.cur_nimg = 1000 ∧
    (training_loop_run budgetScenarioCfg fuel s).1.done = true := by
  intro fuel
  induction fuel with
  | zero =>
    intro s h1 h2 h3
    omega
  | succ n ih =>
    intro s h1 h2 h3
    have hcur : (training_loop_step budgetScenarioCfg s).1.cur_nimg = s.cur_nimg + 4 :=
      step_cur_nimg budgetScenarioCfg s
    have hbrk : (training_loop_step budgetScenarioCfg s).2.2 =
        decide (1000 ≤ s.cur_nimg + 4) := by
      simpa [budgetScenarioCfg] using step_brk budgetScenarioCfg s rfl
    by_cases hb : (training_loop_step budgetScenarioCfg s).2.2 = true
    · have hle : 1000 ≤ s.cur_nimg + 4 := by
        rw [hbrk] at hb
        exact of_decide_eq_true hb
      have hdone : (training_loop_step budgetScenarioCfg s).1.done = true := by
        rw [step_done_eq_brk]
        exact hb
      refine ⟨?_, ?_, ?_⟩ <;> simp [training_loop_run, hb, hcur, hdone] <;> omega
    · have hlt : s.cur_nimg + 4 < 1000 := by
        rw [hbrk] at hb
        simp at hb
        omega
      have hbf : (training_loop_step budgetScenarioCfg s).2.2 = false := by
        rw [hbrk]
        simp
        omega
      have ihs := ih (training_loop_step budgetScenarioCfg s).1
        (by rw [hcur]; omega) (by rw [hcur]; omega) (by rw [hcur]; omega)
      refine ⟨?_, ?_, ?_⟩ <;>
        simp [training_loop_run, hbf, ihs.1, ihs.2.1, ihs.2.2, hcur] <;>
        omega

/-- C6: `cur_nimg` advances by exactly `batch_size` on every pass and
never decreases; absent an abort callback a pass ends in `break` exactly
when `cur_nimg` has reached `total_kimg * 1000`; and in the concrete
scenario (`total_kimg = 1`, `batch_size = 4`) the loop performs exactly
250 passes and terminates with `cur_nimg = 1000`. -/
theorem termination_image_budget :
    (∀ cfg s, (training_loop_step cfg s).1.cur_nimg = s.cur_nimg + cfg.batch_size) ∧
    (∀ cfg s, cfg.abort_present = false →
      ((training_loop_step cfg s).2.2 = true ↔
        cfg.total_kimg * 1000 ≤ s.cur_nimg + cfg.batch_size)) ∧
    ((training_loop_run budgetScenarioCfg 300 (initLoopState budgetScenarioCfg)).2.2 = 250 ∧
      (training_loop_run budgetScenarioCfg 300 (initLoopState budgetScenarioCfg)).1.cur_nimg = 1000 ∧
      (training_loop_run budgetScenarioCfg 300 (initLoopState budgetScenarioCfg)).1.done = true) := by
  refine ⟨step_cur_nimg, fun cfg s h => by rw [step_brk cfg s h]; exact decide_eq_true_iff, ?_⟩
  have h := run_budget_aux 300 (initLoopState budgetScenarioCfg)
    (by norm_num [initLoopState]) (by norm_num [initLoopState]) (by norm_num [initLoopState])
  exact ⟨by simpa [initLoopState] using h.1, h.2.1, h.2.2⟩

/-- Witness for C6: the break test instantiated on the first pass of the
concrete scenario. -/
theorem termination_image_budget_witness :
    (training_loop_step budgetScenarioCfg (initLoopState budgetScenarioCfg)).2.2 = true ↔
      budgetScenarioCfg.total_kimg * 1000 ≤
        (initLoopState budgetScenarioCfg).cur_nimg + budgetScenarioCfg.batch_size :=
  termination_image_budget.2.1 budgetScenarioCfg (initLoopState budgetScenarioCfg) rfl

/-- Configuration for the tick-cadence counterexample: `batch_size = 4`,
`kimg_per_tick = 0.01` (a 10-image tick interval), image budget far away. -/
def tickScenarioCfg : LoopConfig where
  batch_size := 4
  batch_gpu := 4
  ema_kimg := 10
  ema_rampup := none
  augment_kwargs_present := false
  augment_p := 0
  ada_target := none
  ada_interval := 4
  ada_kimg := 500
  total_kimg := 1
  kimg_per_tick := 1 / 100
  abort_present := false
  abort := fun _ => false
  realSigns := fun _ => 0

/-- Counterexample to C3 as stated: with a 10-image tick interval and
batch size 4, the first four passes produce tick boundaries at 4, 12 and
16 consumed images; the boundaries at 12 and 16 are consecutive, only 4
images apart (less than `kimg_per_tick * 1000 = 10`), and the run is not
terminating there (done is still false).  The reset of `tick_start_nimg`
that the claim describes does not exist in the code. -/
theorem tick_boundaries_closer_than_interval :
    ((training_loop_run tickScenarioCfg 4 (initLoopState tickScenarioCfg)).2.1.filterMap
        tickPayload = [4, 12, 16]) ∧
    tickScenarioCfg.kimg_per_tick * 1000 = 10 ∧
    (training_loop_run tickScenarioCfg 4 (initLoopState tickScenarioCfg)).1.done = false ∧
    ((16 : ℤ) - 12 < 10) := by
  refine ⟨?_, by norm_num [tickScenarioCfg], ?_, by norm_num⟩ <;>
    norm_num [training_loop_run, training_loop_step, initLoopState, tickScenarioCfg,
      training_phases, tickPayload, List.filterMap]

/-- C3 (amended): every pass of the loop preserves `tick_start_nimg` (it
is set once, on line 224, and never reassigned), a pass emits at most one
tick boundary (carrying the advanced image counter), and a pass is a tick
boundary exactly when the run is done, or no tick has happened yet
(`cur_tick = 0`), or the advanced image counter has reached
`tick_start_nimg + kimg_per_tick * 1000` (line 295) — with
`tick_start_nimg` frozen at its initial value, so that once the counter
crosses the fixed threshold every subsequent pass is a tick boundary. -/
theorem tick_window_never_reset (cfg : LoopConfig) (s : LoopState) :
    ((training_loop_step cfg s).1.tick_start_nimg = s.tick_start_nimg) ∧
    ((training_loop_step cfg s).2.1.filterMap tickPayload = [] ∨
      (training_loop_step cfg s).2.1.filterMap tickPayload = [s.cur_nimg + cfg.batch_size]) ∧
    ((training_loop_step cfg s).2.1.filterMap tickPayload ≠ [] ↔
      (cfg.total_kimg * 1000 ≤ s.cur_nimg + cfg.batch_size ∨ s.cur_tick = 0 ∨
        (s.tick_start_nimg : ℚ) + cfg.kimg_per_tick * 1000 ≤
          (s.cur_nimg : ℚ) + (cfg.batch_size : ℚ))) := by
  refine ⟨?_, ?_, ?_⟩
  · unfold training_loop_step
    rcases cfg.ema_rampup with _ | r <;>
      by_cases hAda : (s.ada_stats_present && ((s.batch_idx + 1) % cfg.ada_interval == 0)) = true <;>
      simp only [hAda, if_true, if_false] <;>
      split <;> rfl
  · unfold training_loop_step
    rcases cfg.ema_rampup with _ | r <;>
      by_cases hAda : (s.ada_stats_present && ((s.batch_idx + 1) % cfg.ada_interval == 0)) = true <;>
      simp only [hAda, if_true, if_false] <;>
      split <;>
      simp [training_phases, tickPayload]
  · unfold training_loop_step
    rcases cfg.ema_rampup with _ | r <;>
      by_cases hAda : (s.ada_stats_present && ((s.batch_idx + 1) % cfg.ada_interval == 0)) = true <;>
      simp only [hAda, if_true, if_false] <;>
      split
    all_goals
      first
      | (next hc =>
          simp only [Bool.and_eq_true, Bool.not_eq_true', bne_iff_ne, ne_eq,
            decide_eq_true_eq, decide_eq_false_iff_not, Nat.cast_add] at hc
          obtain ⟨⟨hdone, htick⟩, hlt⟩ := hc
          simp [training_phases, tickPayload]
          push_neg
          exact ⟨not_le.mp hdone, htick, hlt⟩)
      | (next hc =>
          rw [Bool.not_eq_true] at hc
          simp only [Bool.and_eq_false_iff, Bool.not_eq_false', bne_eq_false_iff_eq,
            decide_eq_true_eq, decide_eq_false_iff_not, Nat.cast_add] at hc
          simp [training_phases, tickPayload]
          rcases hc with (hc | hc) | hc
          · exact Or.inl hc
          · exact Or.inr (Or.inl hc)
          · exact Or.inr (Or.inr (not_lt.mp hc)))

/-- Recursion core of `splitChunks`, with fuel bounded by the length of
the list (each step consumes at least one element when `n > 0`). -/
def splitChunksAux {α : Type} (n : ℕ) : ℕ → List α → List (List α)
  | 0, _ => []
  | _ + 1, [] => []
  | fuel + 1, a :: l => (a :: l).take n :: splitChunksAux n fuel ((a :: l).drop n)

/-- Embedding of `torch.Tensor.split(n)` along the first dimension:
chunks of `n` consecutive rows, the last chunk possibly shorter.  Used by
line 237: `torch.randn(...).split(batch_gpu)`. -/
def splitChunks {α : Type} (n : ℕ) (l : List α) : List (List α) :=
  if n = 0 then [] else splitChunksAux n l.length l

/-- Splitting an empty list gives no chunks, for any fuel. -/
theorem splitChunksAux_nil {α : Type} (n fuel : ℕ) :
    splitChunksAux n fuel ([] : List α) = [] := by
  cases fuel <;> rfl

/-- A list of exactly `2 * bg` rows splits into exactly two chunks of
`bg` rows. -/
theorem splitChunks_double {α : Type} (bg : ℕ) (hbg : 0 < bg) (z : List α)
    (hz : z.length = 2 * bg) :
    splitChunks bg z = [z.take bg, (z.drop bg).take bg] := by
  unfold splitChunks
  rw [if_neg (by omega), hz]
  obtain ⟨m, hm⟩ : ∃ m, 2 * bg = m + 1 := ⟨2 * bg - 1, by omega⟩
  rw [hm]
  cases z with
  | nil => simp at hz; omega
  | cons a z1 =>
    show (a :: z1).take bg :: splitChunksAux bg m ((a :: z1).drop bg) = _
    have hd : ((a :: z1).drop bg).length = bg := by
      rw [List.length_drop, hz]
      omega
    cases hdrop : (a :: z1).drop bg with
    | nil =>
      rw [hdrop] at hd
      simp at hd
      omega
    | cons b d1 =>
      obtain ⟨k, hk⟩ : ∃ m2, m = m2 + 1 := ⟨m - 1, by omega⟩
      subst hk
      show (a :: z1).take bg :: ((b :: d1).take bg :: splitChunksAux bg k ((b :: d1).drop bg)) = _
      have hnil : (b :: d1).drop bg = [] := by
        apply List.drop_eq_nil_of_le
        rw [hdrop] at hd
        omega
      rw [hnil, splitChunksAux_nil]

/-- Embedding of the zip on line 243 of `training_loop.py`:
`zip(phases, all_gen_z, all_gen_c)`.  `all_gen_z` is a tuple of tensors
(a list of row batches), while `all_gen_c` is a single stacked tensor, and
Python iteration over a tensor yields its rows: so the third component of
each triple is one row (`QVec`), not a row batch (`QMat`). -/
def phaseAssignments (phs : List (String × ℕ)) (allZ : List QMat) (allC : QMat) :
    List ((String × ℕ) × QMat × QVec) :=
  phs.zip (allZ.zip allC)

/-- C10: for each training phase, the conditioning argument `phase_gen_c`
produced by the zip on line 243 is the corresponding single row (length
`label_dim`) of the stacked tensor of `2 * batch_gpu` sampled labels —
the i-th triple carries row i, with `(zipped).map` of the labels equal to
the first two rows — while the latent argument is a full batch of
`batch_gpu` rows. -/
theorem gen_c_is_single_row (bg ld : ℕ) (z c : QMat) (hbg : 0 < bg)
    (hz : z.length = 2 * bg) (hc : c.length = 2 * bg)
    (hld : ∀ row ∈ c, row.length = ld) :
    ((phaseAssignments training_phases (splitChunks bg z) c).map (fun t => t.2.2) = c.take 2) ∧
    (∀ t ∈ phaseAssignments training_phases (splitChunks bg z) c,
      t.2.2.length = ld ∧ t.2.1.length = bg) := by
  have hsplit := splitChunks_double bg hbg z hz
  obtain ⟨c0, c1, cs, rfl⟩ : ∃ c0 c1 cs, c = c0 :: c1 :: cs := by
    cases c with
    | nil => simp at hc; omega
    | cons c0 t =>
      cases t with
      | nil => simp at hc; omega
      | cons c1 cs => exact ⟨c0, c1, cs, rfl⟩
  have hzip : phaseAssignments training_phases (splitChunks bg z) (c0 :: c1 :: cs) =
      [(("Gboth", 1), z.take bg, c0), (("Dboth", 1), (z.drop bg).take bg, c1)] := by
    rw [phaseAssignments, hsplit]
    rfl
  refine ⟨by rw [hzip]; rfl, ?_⟩
  intro t ht
  rw [hzip] at ht
  simp only [List.mem_cons, List.not_mem_nil, or_false] at ht
  have h0 : c0.length = ld := hld c0 (by simp)
  have h1 : c1.length = ld := hld c1 (by simp)
  rcases ht with rfl | rfl
  · refine ⟨h0, ?_⟩
    rw [List.length_take, hz]
    omega
  · refine ⟨h1, ?_⟩
    rw [List.length_take, List.length_drop, hz]
    omega

/-- Witness for C10: `batch_gpu = 2`, `label_dim = 2`, four sampled
latents and four one-hot label rows. -/
theorem gen_c_is_single_row_witness :
    (phaseAssignments training_phases (splitChunks 2 [[5], [6], [7], [8]])
        [[1, 0], [0, 1], [1, 0], [0, 1]]).map (fun t => t.2.2) =
      ([[1, 0], [0, 1], [1, 0], [0, 1]] : QMat).take 2 :=
  (gen_c_is_single_row 2 2 [[5], [6], [7], [8]] [[1, 0], [0, 1], [1, 0], [0, 1]]
    (by norm_num) (by norm_num) (by norm_num) (by decide)).1

/-- Witness for C3 (amended): the tick-window statement instantiated on
the first pass of the tick scenario. -/
theorem tick_window_never_reset_witness :
    ((training_loop_step tickScenarioCfg (initLoopState tickScenarioCfg)).1.tick_start_nimg =
      (initLoopState tickScenarioCfg).tick_start_nimg) ∧
    ((training_loop_step tickScenarioCfg (initLoopState tickScenarioCfg)).2.1.filterMap
        tickPayload = [] ∨
      (training_loop_step tickScenarioCfg (initLoopState tickScenarioCfg)).2.1.filterMap
        tickPayload = [(initLoopState tickScenarioCfg).cur_nimg + tickScenarioCfg.batch_size]) ∧
    ((training_loop_step tickScenarioCfg (initLoopState tickScenarioCfg)).2.1.filterMap
        tickPayload ≠ [] ↔
      (tickScenarioCfg.total_kimg * 1000 ≤
          (initLoopState tickScenarioCfg).cur_nimg + tickScenarioCfg.batch_size ∨
        (initLoopState tickScenarioCfg).cur_tick = 0 ∨
        ((initLoopState tickScenarioCfg).tick_start_nimg : ℚ) +
            tickScenarioCfg.kimg_per_tick * 1000 ≤
          ((initLoopState tickScenarioCfg).cur_nimg : ℚ) + (tickScenarioCfg.batch_size : ℚ))) :=
  tick_window_never_reset tickScenarioCfg (initLoopState tickScenarioCfg)
